import Mathlib

/-!
Shallow embedding of the INIS-Team-Vienna/sentiment_analyse pipeline
(sentiment_gpt.py, divide_by_quarter.py, line_chart_by_quarter.py)
and verification of its specification claims.
-/

namespace SentimentAnalyse

/-! ### sentiment_gpt.py — batch classification engine -/

/-- Outcome of one call to the classifier adapter
(`self.client.chat.completions.create` followed by response parsing in
`classify_sentiment_batch`): either the call raises (transport error, empty
response, unparseable JSON — all funnel into the `except` branch), or it
yields the parsed `sentiments` list, `json.loads(result).get("sentiments", [])`. -/
inductive AdapterResult where
  | failure
  | success (sentiments : List String)
deriving Repr, DecidableEq

/-- Embedding of `SentimentAnalyzer.classify_sentiment_batch`
(src/sentiment_gpt.py lines 43-89).  On adapter failure the `except` branch
returns `["Neutral"] * len(texts)`; on success, if the label count mismatches
it pads short responses with `"Neutral"` and truncates long ones. -/
def classify_sentiment_batch (texts : List String) (resp : AdapterResult) :
    List String :=
  match resp with
  | .failure => List.replicate texts.length "Neutral"
  | .success sentiments =>
      let len_text := texts.length
      if sentiments.length ≠ len_text then
        if sentiments.length < len_text then
          sentiments ++ List.replicate (len_text - sentiments.length) "Neutral"
        else
          sentiments.take len_text
      else
        sentiments

/-- One output row of `analyze_file`: the dict
`{"text": ..., "sentiment": ...}` appended to `results`. -/
structure ResultRow where
  text : String
  sentiment : String
deriving Repr, DecidableEq

/-- Embedding of the per-batch body of `SentimentAnalyzer.analyze_file`
(src/sentiment_gpt.py lines 113-129, the `try` path): zip the batch with the
sentiments, then, defensively, pad positions `len(sentiments)..len(batch)`
with `"Neutral"`.  The `except` branch at lines 131-138 is unreachable since
`classify_sentiment_batch` catches every exception itself. -/
def batchResults (batch : List String) (resp : AdapterResult) : List ResultRow :=
  let sentiments := classify_sentiment_batch batch resp
  ((batch.zip sentiments).map fun p => ⟨p.1, p.2⟩) ++
    (if sentiments.length < batch.length then
      (batch.drop sentiments.length).map fun t => ⟨t, "Neutral"⟩
    else [])

/-- Embedding of the chunking loop `for i in range(0, total_docs,
self.batch_size): batch = documents[i:i + self.batch_size]`
(src/sentiment_gpt.py lines 106-107), meaningful for `batch_size ≥ 1`
(Python raises on step 0). -/
def chunkBatches (batch_size : Nat) : List String → List (List String)
  | [] => []
  | d :: ds =>
      (d :: ds).take batch_size :: chunkBatches batch_size (ds.drop (batch_size - 1))
termination_by l => l.length
decreasing_by
  simp only [List.length_drop, List.length_cons]
  omega

/-- The chunk-processing loop of `analyze_file`: each chunk is classified with
the adapter response for its (0-based) chunk index and its rows are appended
to `results` in order. -/
def mapBatches (resps : Nat → AdapterResult) : Nat → List (List String) → List ResultRow
  | _, [] => []
  | i, b :: bs => batchResults b (resps i) ++ mapBatches resps (i + 1) bs

/-- Embedding of `SentimentAnalyzer.analyze_file` (src/sentiment_gpt.py lines
91-156) from the extracted `documents` on: chunk, classify each chunk, then
run the final validation `while len(results) < total_docs` which appends
`(documents[len(results)], "Neutral")` rows until the counts agree. -/
def analyze_file (batch_size : Nat) (documents : List String)
    (resps : Nat → AdapterResult) : List ResultRow :=
  let results := mapBatches resps 0 (chunkBatches batch_size documents)
  results ++ (documents.drop results.length).map fun t => ⟨t, "Neutral"⟩

/-! ### divide_by_quarter.py — quarter partition and merge engine -/

/-- One row of an input table for the quarterly processor: the `UTC_Time`
month after `pd.to_datetime(..., errors='coerce')` (`none` models a
missing/unparseable timestamp, i.e. `NaT`), plus the rest of the row's
payload. -/
structure DataRow where
  month : Option Int
  content : String
deriving Repr, DecidableEq

/-- Embedding of `QuarterlyDataProcessor.get_quarter`
(src/divide_by_quarter.py lines 21-30): chained comparisons with a catch-all
`else` returning `"Q4"`. -/
def get_quarter (month : Int) : String :=
  if 1 ≤ month ∧ month ≤ 3 then "Q1"
  else if 4 ≤ month ∧ month ≤ 6 then "Q2"
  else if 7 ≤ month ∧ month ≤ 9 then "Q3"
  else "Q4"

/-- The in-memory `quarterly_data = {"Q1": [], "Q2": [], "Q3": [], "Q4": []}`
dictionary of `process_single_file`. -/
structure QuarterlyData where
  q1 : List DataRow
  q2 : List DataRow
  q3 : List DataRow
  q4 : List DataRow
deriving Repr, DecidableEq

/-- The statement `quarterly_data[quarter].append(row)`: append `row` to the
bucket named by `quarter`.  `get_quarter` only ever produces the four keys of
the dictionary, and `"Q4"` is the last of them. -/
def addRow (qd : QuarterlyData) (quarter : String) (row : DataRow) : QuarterlyData :=
  if quarter = "Q1" then { qd with q1 := qd.q1 ++ [row] }
  else if quarter = "Q2" then { qd with q2 := qd.q2 ++ [row] }
  else if quarter = "Q3" then { qd with q3 := qd.q3 ++ [row] }
  else { qd with q4 := qd.q4 ++ [row] }

/-- The body of the row loop of `process_single_file`
(src/divide_by_quarter.py lines 71-77): a row with a valid timestamp goes to
the bucket of its month's quarter and bumps `processed_count`; a row with
`NaT` bumps `skipped_count` and goes nowhere.  The accumulator is
(`quarterly_data`, `processed_count`, `skipped_count`). -/
def bucketStep (acc : QuarterlyData × Nat × Nat) (row : DataRow) :
    QuarterlyData × Nat × Nat :=
  match row.month with
  | some m => (addRow acc.1 (get_quarter m) row, acc.2.1 + 1, acc.2.2)
  | none => (acc.1, acc.2.1, acc.2.2 + 1)

/-- Embedding of the row loop of `process_single_file`
(src/divide_by_quarter.py lines 66-78), starting from empty buckets and zero
counters. -/
def bucketRows (rows : List DataRow) : QuarterlyData × Nat × Nat :=
  rows.foldl bucketStep (⟨[], [], [], []⟩, 0, 0)

/-- State of one persisted quarterly file: `pd.read_excel` on it either
raises (a corrupt/unparseable file) or yields its rows. -/
inductive FileState where
  | corrupt
  | good (rows : List DataRow)
deriving Repr, DecidableEq

/-- The file system seen through the storage adapter: each path is either
absent (`none`, `os.path.exists` false) or holds a `FileState`. -/
def Store : Type := String → Option FileState

/-- Path convention of `Config.get_quarterly_file_path`: the partition for
`(year, quarter)` lives at key `"{year}_{quarter}"`. -/
def qkey (year quarter : String) : String := year ++ "_" ++ quarter

/-- Writing `new_df.to_excel(quarter_file_path)`: a full overwrite of one key. -/
def updateStore (s : Store) (k : String) (v : FileState) : Store :=
  fun k' => if k' = k then some v else s k'

/-- Embedding of the save loop `for quarter, rows in quarterly_data.items()`
of `process_single_file` (src/divide_by_quarter.py lines 83-97).  Empty
buckets are skipped (`if rows:`).  If the quarter file exists it is read —
a corrupt file makes `pd.read_excel` raise, which escapes the loop (the
remaining quarters are never written) and is caught by the function-level
`except`, modeled by returning the store as mutated so far with flag
`false`.  Otherwise the bucket is concatenated after the existing rows
(`pd.concat([existing_df, new_df])`) or becomes a new file. -/
def saveQuarterlyFiles (s : Store) (year : String) :
    List (String × List DataRow) → Store × Bool
  | [] => (s, true)
  | (q, rows) :: rest =>
      if rows.isEmpty then saveQuarterlyFiles s year rest
      else
        match s (qkey year q) with
        | some .corrupt => (s, false)
        | some (.good existing) =>
            saveQuarterlyFiles
              (updateStore s (qkey year q) (.good (existing ++ rows))) year rest
        | none =>
            saveQuarterlyFiles (updateStore s (qkey year q) (.good rows)) year rest

/-- Embedding of `QuarterlyDataProcessor.process_single_file`
(src/divide_by_quarter.py lines 32-102).  `hasTimeCol` is whether the input
table has the `UTC_Time` column (its absence raises a `ValueError`, caught by
the same function-level `except`); `year` is the already-resolved year label
of lines 52-63 (a string computed from the file name or the data, used only
to name the output files); `rows` are the input rows.  The returned flag is
`true` iff the function ran to completion without an exception. -/
def process_single_file (s : Store) (hasTimeCol : Bool) (year : String)
    (rows : List DataRow) : Store × Bool :=
  if ¬ hasTimeCol then (s, false)
  else
    let qd := (bucketRows rows).1
    saveQuarterlyFiles s year [("Q1", qd.q1), ("Q2", qd.q2), ("Q3", qd.q3), ("Q4", qd.q4)]

/-- Embedding of the file loop of `QuarterlyDataProcessor.process_all_files`
(src/divide_by_quarter.py lines 129-132): each input file, given as
(`hasTimeCol`, resolved year, rows), is processed in turn against the store
left by its predecessors; the success flag of a file is not consulted. -/
def process_all_files (s : Store) (files : List (Bool × String × List DataRow)) : Store :=
  files.foldl (fun st f => (process_single_file st f.1 f.2.1 f.2.2).1) s

/-! ### line_chart_by_quarter.py — aggregation engine -/

/-- A persisted quarterly file as the visualizer sees it: absent on disk
(`os.path.exists` false), readable but unusable (`pd.read_excel` raises or
`find_sentiment_column` finds no `sentiment` column — both make
`process_quarterly_file` return `False`), or a well-formed partition whose
`sentiment` column holds the given labels. -/
inductive QuarterFile where
  | missing
  | unreadable
  | ok (labels : List String)
deriving Repr, DecidableEq

/-- The percentage computation of `SentimentVisualizer.process_quarterly_file`
(src/line_chart_by_quarter.py lines 45-54):
`value_counts(normalize=True) * 100` gives `100 * count / total` for each
present label and the `.get(..., 0)` default gives `0` for an absent one
(the two coincide as `100 * 0 / total = 0`, and on an empty column both are
`0`); each class merges exactly the two spellings `"Positive"`/`"positive"`
etc.  Rationals stand in for Python floats. -/
def process_quarterly_percentages (labels : List String) : ℚ × ℚ × ℚ :=
  let pct : String → ℚ := fun s => 100 * (labels.count s : ℚ) / (labels.length : ℚ)
  (pct "Positive" + pct "positive",
   pct "Negative" + pct "negative",
   pct "Neutral" + pct "neutral")

/-- The `self.sentiment_data` accumulator of `SentimentVisualizer`: four
parallel lists grown side by side. -/
structure SentimentData where
  quarter : List String
  positive : List ℚ
  negative : List ℚ
  neutral : List ℚ
deriving Repr, DecidableEq

/-- Embedding of `SentimentVisualizer.process_quarterly_file`
(src/line_chart_by_quarter.py lines 32-67): on an unreadable file or a
missing `sentiment` column it returns `False` and leaves the accumulator
untouched; otherwise it appends the quarter name and the three percentages
and returns `True`. -/
def process_quarterly_file (sd : SentimentData) (file : QuarterFile)
    (quarter_name : String) : SentimentData × Bool :=
  match file with
  | .missing => (sd, false)
  | .unreadable => (sd, false)
  | .ok labels =>
      let p := process_quarterly_percentages labels
      ({ quarter := sd.quarter ++ [quarter_name],
         positive := sd.positive ++ [p.1],
         negative := sd.negative ++ [p.2.1],
         neutral := sd.neutral ++ [p.2.2] }, true)

/-- The inner loop of `collect_data` over a list of quarter names for one
year: existing files are processed, missing files only get a warning. -/
def collectQuarters (store : Nat → String → QuarterFile) (year : Nat)
    (qs : List String) (sd : SentimentData) : SentimentData :=
  qs.foldl
    (fun sd q =>
      if store year q = QuarterFile.missing then sd
      else (process_quarterly_file sd (store year q) (toString year ++ "_" ++ q)).1)
    sd

/-- Embedding of `SentimentVisualizer.collect_data`
(src/line_chart_by_quarter.py lines 69-85): for each year of
`range(year_range[0], year_range[1] + 1)` and each quarter of
`["Q1", "Q2", "Q3", "Q4"]`, process the file at
`Config.get_quarterly_file_path(year, quarter)` if it exists, starting from
the empty accumulator the visualizer was constructed with. -/
def collect_data (store : Nat → String → QuarterFile) (startYear endYear : Nat) :
    SentimentData :=
  (List.range' startYear (endYear + 1 - startYear)).foldl
    (fun sd year => collectQuarters store year ["Q1", "Q2", "Q3", "Q4"] sd)
    ⟨[], [], [], []⟩

/-! ### Specification-side definitions, for comparison with the code -/

/-- A string lowered character by character, the comparison key for
case-insensitive matching. -/
def lowerStr (s : String) : List Char := s.data.map Char.toLower

/-- Number of labels matching a class case-insensitively, following the
spec's words "case-insensitively merging label spelling variants". -/
def countCaseInsensitive (labels : List String) (cls : String) : Nat :=
  (labels.filter fun s => lowerStr s = lowerStr cls).length

/-- The percentage the spec prescribes for one class:
`100 * count(label == class) / total_records_in_partition` with the count
taken case-insensitively. -/
def spec_percentage_ci (labels : List String) (cls : String) : ℚ :=
  100 * (countCaseInsensitive labels cls : ℚ) / (labels.length : ℚ)

/-- The trend rows the spec prescribes for one year over a list of quarter
names: one row per quarter whose well-formed partition exists, keyed
`"{year}_{quarter}"`, in the order of the quarter list, with the code's
percentage triple; quarters without such a partition are omitted. -/
def spec_quarterRows (store : Nat → String → QuarterFile) (year : Nat)
    (qs : List String) : List (String × ℚ × ℚ × ℚ) :=
  qs.filterMap fun q =>
    match store year q with
    | .ok labels =>
        some (toString year ++ "_" ++ q, process_quarterly_percentages labels)
    | _ => none

/-- The trend table the spec's aggregation contract prescribes: one row per
quarter of the requested range whose well-formed partition exists, in
chronological order (year ascending, Q1 through Q4); quarters without a
partition are omitted, not zero-filled. -/
def spec_trendRows (store : Nat → String → QuarterFile) (startYear endYear : Nat) :
    List (String × ℚ × ℚ × ℚ) :=
  (List.range' startYear (endYear + 1 - startYear)).flatMap fun year =>
    spec_quarterRows store year ["Q1", "Q2", "Q3", "Q4"]

/-- A concrete file system whose only entry is a corrupt partition at
`"2024_Q1"`. -/
def corruptQ1Store : Store :=
  fun k => if k = "2024_Q1" then some FileState.corrupt else none

/-- A concrete file system whose only entry is a readable one-row partition
at `"2024_Q1"`. -/
def goodQ1Store : Store :=
  fun k =>
    if k = "2024_Q1" then some (FileState.good [⟨some 1, "old"⟩]) else none

/-! ### Helper lemmas -/

/-- Closed form of the success branch of `classify_sentiment_batch`. -/
lemma classify_success_eq (texts labels : List String) :
    classify_sentiment_batch texts (AdapterResult.success labels) =
      if labels.length < texts.length then
        labels ++ List.replicate (texts.length - labels.length) "Neutral"
      else labels.take texts.length := by
  simp only [classify_sentiment_batch]
  rcases lt_trichotomy labels.length texts.length with h | h | h
  · rw [if_pos (by omega), if_pos h]
  · rw [if_neg (by omega), if_neg (by omega), ← h, List.take_length]
  · rw [if_pos (by omega), if_neg (by omega)]

/-- The classification of a chunk always has exactly one label per text. -/
lemma classify_length (texts : List String) (resp : AdapterResult) :
    (classify_sentiment_batch texts resp).length = texts.length := by
  cases resp with
  | failure => simp [classify_sentiment_batch]
  | success labels =>
      rw [classify_success_eq]
      split
      · simp only [List.length_append, List.length_replicate]
        omega
      · simp only [List.length_take]
        omega

/-- Each processed batch contributes exactly one result row per text. -/
lemma batchResults_length (batch : List String) (resp : AdapterResult) :
    (batchResults batch resp).length = batch.length := by
  simp only [batchResults, List.length_append, List.length_map, List.length_zip,
    classify_length]
  simp

/-- The chunk loop emits one row per element of every chunk. -/
lemma mapBatches_length (resps : Nat → AdapterResult) (chunks : List (List String)) :
    ∀ i : Nat, (mapBatches resps i chunks).length = (chunks.map List.length).sum := by
  induction chunks with
  | nil => intro i; rfl
  | cons b bs ih =>
      intro i
      simp [mapBatches, List.length_append, batchResults_length, ih]

/-- Concatenating the chunks of `chunkBatches` recovers the input, bounded
version for induction on the length. -/
lemma chunkBatches_flatten_aux (k : Nat) :
    ∀ (n : Nat) (l : List String), l.length ≤ n →
      (chunkBatches (k + 1) l).flatten = l := by
  intro n
  induction n with
  | zero =>
      intro l hl
      have : l = [] := List.eq_nil_of_length_eq_zero (by omega)
      subst this
      simp [chunkBatches]
  | succ n ih =>
      intro l hl
      match l with
      | [] => simp [chunkBatches]
      | d :: ds =>
          rw [chunkBatches]
          have hrec : (chunkBatches (k + 1) (ds.drop (k + 1 - 1))).flatten =
              ds.drop (k + 1 - 1) := by
            refine ih _ ?_
            simp only [List.length_drop]
            simp only [List.length_cons] at hl
            omega
          rw [List.flatten_cons, hrec]
          simp only [Nat.add_sub_cancel, List.take_succ_cons]
          rw [List.cons_append, List.take_append_drop]

/-- Concatenating the chunks of `chunkBatches` recovers the input. -/
lemma chunkBatches_flatten (batch_size : Nat) (h : 1 ≤ batch_size)
    (l : List String) : (chunkBatches batch_size l).flatten = l := by
  obtain ⟨k, rfl⟩ : ∃ k, batch_size = k + 1 := ⟨batch_size - 1, by omega⟩
  exact chunkBatches_flatten_aux k l.length l le_rfl

/-- Every string occurring in a classification result is either the fallback
label or one of the adapter-returned labels. -/
lemma mem_classify (texts : List String) (resp : AdapterResult) (s : String)
    (h : s ∈ classify_sentiment_batch texts resp) :
    s = "Neutral" ∨ ∃ labels, resp = AdapterResult.success labels ∧ s ∈ labels := by
  cases resp with
  | failure =>
      left
      exact List.eq_of_mem_replicate h
  | success labels =>
      rw [classify_success_eq] at h
      split at h
      · rcases List.mem_append.1 h with h' | h'
        · exact Or.inr ⟨labels, rfl, h'⟩
        · exact Or.inl (List.eq_of_mem_replicate h')
      · exact Or.inr ⟨labels, rfl, List.take_subset _ _ h⟩

/-! ### Claims C1-C4: the batch classification engine -/

/-- C1: For every list of input texts and every adapter response per chunk,
`analyze_file` (which composes `classify_sentiment_batch` over all chunks)
produces exactly one labeled result row per input record: the output length
equals the input length, for every positive batch size. -/
theorem analyze_file_length (batch_size : Nat) (documents : List String)
    (resps : Nat → AdapterResult) (hbs : 1 ≤ batch_size) :
    (analyze_file batch_size documents resps).length = documents.length := by
  have hres : (mapBatches resps 0 (chunkBatches batch_size documents)).length =
      documents.length := by
    rw [mapBatches_length, ← List.length_flatten,
      chunkBatches_flatten batch_size hbs documents]
  simp only [analyze_file, List.length_append, List.length_map, List.length_drop, hres]
  omega

/-- Witness for C1 at a concrete input: 3 documents in batches of 2, with
every adapter call failing, still yield 3 rows. -/
theorem analyze_file_length_witness :
    (analyze_file 2 ["a", "b", "c"] (fun _ => AdapterResult.failure)).length = 3 :=
  analyze_file_length 2 ["a", "b", "c"] (fun _ => AdapterResult.failure) (by decide)

/-- C3: If the adapter call for a chunk raises any exception, the chunk's
classification is `Neutral` for every record — the result is literally
`n` copies of `"Neutral"`, so no record is dropped and no exception escapes. -/
theorem classify_failure_all_neutral (texts : List String) :
    classify_sentiment_batch texts AdapterResult.failure =
        List.replicate texts.length "Neutral" ∧
      (classify_sentiment_batch texts AdapterResult.failure).length = texts.length ∧
      ∀ s ∈ classify_sentiment_batch texts AdapterResult.failure, s = "Neutral" := by
  refine ⟨rfl, classify_length texts AdapterResult.failure, fun s hs => ?_⟩
  exact List.eq_of_mem_replicate hs

/-- Witness for C3 at a concrete chunk of two texts. -/
theorem classify_failure_all_neutral_witness :
    classify_sentiment_batch ["a", "b"] AdapterResult.failure =
        ["Neutral", "Neutral"] ∧
      ("Neutral" : String) = "Neutral" := by
  have h := classify_failure_all_neutral ["a", "b"]
  exact ⟨h.1, h.2.2 "Neutral" (by decide)⟩

/-- C4: For a chunk of `n` texts where the adapter successfully returns `r`
labels: if `r < n` the output is the `r` labels followed by `n - r` copies
of `Neutral`; if `r > n` it is the first `n` labels; if `r = n` it is the
labels unchanged. -/
theorem classify_success_alignment (texts labels : List String) :
    (labels.length < texts.length →
        classify_sentiment_batch texts (AdapterResult.success labels) =
          labels ++ List.replicate (texts.length - labels.length) "Neutral") ∧
      (texts.length < labels.length →
        classify_sentiment_batch texts (AdapterResult.success labels) =
          labels.take texts.length) ∧
      (labels.length = texts.length →
        classify_sentiment_batch texts (AdapterResult.success labels) = labels) := by
  refine ⟨fun h => ?_, fun h => ?_, fun h => ?_⟩
  · rw [classify_success_eq, if_pos h]
  · rw [classify_success_eq, if_neg (by omega)]
  · rw [classify_success_eq, if_neg (by omega), ← h, List.take_length]

/-- Witness for C4: a 2-text chunk answered with a single label is padded
with one `Neutral`. -/
theorem classify_success_alignment_witness :
    classify_sentiment_batch ["a", "b"] (AdapterResult.success ["Positive"]) =
      ["Positive", "Neutral"] := by
  have h := (classify_success_alignment ["a", "b"] ["Positive"]).1 (by decide)
  simpa using h

/-- C2 counterexample: a successful adapter response is passed through
without validation, so an off-vocabulary label such as `"Banana"` is
attached verbatim to the resulting record, refuting membership in
`{Positive, Negative, Neutral}` for adapter-chosen labels. -/
theorem batchResults_label_not_validated :
    (batchResults ["t"] (AdapterResult.success ["Banana"])).map ResultRow.sentiment =
        ["Banana"] ∧
      ¬ ("Banana" = "Positive" ∨ "Banana" = "Negative" ∨ "Banana" = "Neutral") := by
  exact ⟨rfl, by decide⟩

/-- C2 amended: every label attached to a result row is either the fallback
`"Neutral"` (adapter failure, or padding of a short response) or literally
one of the labels the adapter returned; only in the failure and padding
cases is membership in the three-class vocabulary guaranteed. -/
theorem batchResults_labels_provenance (texts : List String) (resp : AdapterResult) :
    ∀ row ∈ batchResults texts resp,
      row.sentiment = "Neutral" ∨
        ∃ labels, resp = AdapterResult.success labels ∧ row.sentiment ∈ labels := by
  intro row hrow
  simp only [batchResults] at hrow
  rcases List.mem_append.1 hrow with h | h
  · obtain ⟨p, hp, rfl⟩ := List.mem_map.1 h
    exact mem_classify texts resp p.2 (List.of_mem_zip hp).2
  · split at h
    · obtain ⟨t, _, rfl⟩ := List.mem_map.1 h
      exact Or.inl rfl
    · exact absurd h (List.not_mem_nil row)

/-- Witness for C2 amended at a concrete failing chunk. -/
theorem batchResults_labels_provenance_witness :
    (⟨"t", "Neutral"⟩ : ResultRow).sentiment = "Neutral" ∨
      ∃ labels, AdapterResult.failure = AdapterResult.success labels ∧
        (⟨"t", "Neutral"⟩ : ResultRow).sentiment ∈ labels :=
  batchResults_labels_provenance ["t"] AdapterResult.failure ⟨"t", "Neutral"⟩ (by decide)

/-! ### Claims C8 and C10: quarter derivation and bucketing -/

/-- Membership in a bucket after `addRow` comes from the old bucket or is the
added row. -/
lemma mem_addRow (qd : QuarterlyData) (q : String) (row r : DataRow)
    (h : r ∈ (addRow qd q row).q1 ∨ r ∈ (addRow qd q row).q2 ∨
      r ∈ (addRow qd q row).q3 ∨ r ∈ (addRow qd q row).q4) :
    (r ∈ qd.q1 ∨ r ∈ qd.q2 ∨ r ∈ qd.q3 ∨ r ∈ qd.q4) ∨ r = row := by
  unfold addRow at h
  split_ifs at h <;>
    · simp only [List.mem_append, List.mem_singleton] at h
      tauto

/-- The skipped counter of the row loop counts exactly the rows with an
invalid timestamp. -/
lemma bucketFold_skipped (rows : List DataRow) :
    ∀ acc : QuarterlyData × Nat × Nat,
      (rows.foldl bucketStep acc).2.2 =
        acc.2.2 + (rows.filter fun r => r.month.isNone).length := by
  induction rows with
  | nil => intro acc; simp
  | cons r rs ih =>
      intro acc
      rw [List.foldl_cons, ih]
      cases hm : r.month with
      | none => simp [bucketStep, hm, List.filter_cons]; omega
      | some m => simp [bucketStep, hm, List.filter_cons]

/-- Every row found in a bucket after the row loop was either there already
or is an input row with a valid timestamp. -/
lemma bucketFold_mem (rows : List DataRow) :
    ∀ (acc : QuarterlyData × Nat × Nat) (r : DataRow),
      (r ∈ (rows.foldl bucketStep acc).1.q1 ∨ r ∈ (rows.foldl bucketStep acc).1.q2 ∨
        r ∈ (rows.foldl bucketStep acc).1.q3 ∨ r ∈ (rows.foldl bucketStep acc).1.q4) →
      (r ∈ acc.1.q1 ∨ r ∈ acc.1.q2 ∨ r ∈ acc.1.q3 ∨ r ∈ acc.1.q4) ∨
        (r ∈ rows ∧ r.month ≠ none) := by
  induction rows with
  | nil => intro acc r h; exact Or.inl h
  | cons x xs ih =>
      intro acc r h
      rw [List.foldl_cons] at h
      rcases ih (bucketStep acc x) r h with h' | h'
      · cases hm : x.month with
        | none =>
            simp only [bucketStep, hm] at h'
            exact Or.inl h'
        | some m =>
            simp only [bucketStep, hm] at h'
            rcases mem_addRow _ _ _ _ h' with h'' | rfl
            · exact Or.inl h''
            · exact Or.inr ⟨by simp, by simp [hm]⟩
      · exact Or.inr ⟨List.mem_cons_of_mem x h'.1, h'.2⟩

/-- C8: `get_quarter` maps months 1-3 to `"Q1"`, 4-6 to `"Q2"`, 7-9 to
`"Q3"` and 10-12 to `"Q4"`; and, in the row loop of `process_single_file`,
every record with a missing/unparseable timestamp is excluded from all four
quarter buckets and is counted by the skipped counter. -/
theorem quarter_mapping_and_skip :
    (∀ m : Int,
        ((1 ≤ m ∧ m ≤ 3) → get_quarter m = "Q1") ∧
        ((4 ≤ m ∧ m ≤ 6) → get_quarter m = "Q2") ∧
        ((7 ≤ m ∧ m ≤ 9) → get_quarter m = "Q3") ∧
        ((10 ≤ m ∧ m ≤ 12) → get_quarter m = "Q4")) ∧
      ∀ rows : List DataRow,
        (bucketRows rows).2.2 = (rows.filter fun r => r.month.isNone).length ∧
        ∀ r : DataRow, r.month = none →
          ¬ (r ∈ (bucketRows rows).1.q1 ∨ r ∈ (bucketRows rows).1.q2 ∨
             r ∈ (bucketRows rows).1.q3 ∨ r ∈ (bucketRows rows).1.q4) := by
  constructor
  · intro m
    refine ⟨fun h => ?_, fun h => ?_, fun h => ?_, fun h => ?_⟩ <;>
      · simp only [get_quarter]
        split_ifs <;> first | rfl | (exfalso; omega)
  · intro rows
    constructor
    · rw [bucketRows, bucketFold_skipped]
      simp
    · intro r hm hcontra
      rcases bucketFold_mem rows _ r hcontra with h | h
      · simp at h
      · exact h.2 hm

/-- Witness for C8 at concrete months and a concrete timestampless row. -/
theorem quarter_mapping_and_skip_witness :
    get_quarter 2 = "Q1" ∧ get_quarter 5 = "Q2" ∧ get_quarter 8 = "Q3" ∧
      get_quarter 11 = "Q4" ∧
      ¬ ((⟨none, "x"⟩ : DataRow) ∈ (bucketRows [⟨none, "x"⟩]).1.q1 ∨
         (⟨none, "x"⟩ : DataRow) ∈ (bucketRows [⟨none, "x"⟩]).1.q2 ∨
         (⟨none, "x"⟩ : DataRow) ∈ (bucketRows [⟨none, "x"⟩]).1.q3 ∨
         (⟨none, "x"⟩ : DataRow) ∈ (bucketRows [⟨none, "x"⟩]).1.q4) :=
  ⟨(quarter_mapping_and_skip.1 2).1 (by decide),
   (quarter_mapping_and_skip.1 5).2.1 (by decide),
   (quarter_mapping_and_skip.1 8).2.2.1 (by decide),
   (quarter_mapping_and_skip.1 11).2.2.2 (by decide),
   (quarter_mapping_and_skip.2 [⟨none, "x"⟩]).2 ⟨none, "x"⟩ rfl⟩

/-- C10: `get_quarter` is total over all integers: it always returns one of
the four quarter strings, and every month outside 1..9 — including 0, 13 or
negative values — falls through to the catch-all `else` branch and yields
`"Q4"`. -/
theorem get_quarter_total (m : Int) :
    (get_quarter m = "Q1" ∨ get_quarter m = "Q2" ∨ get_quarter m = "Q3" ∨
        get_quarter m = "Q4") ∧
      (¬ (1 ≤ m ∧ m ≤ 9) → get_quarter m = "Q4") := by
  constructor
  · simp only [get_quarter]
    split_ifs <;> tauto
  · intro h
    simp only [get_quarter]
    rw [if_neg (by omega), if_neg (by omega), if_neg (by omega)]

/-- Witness for C10 at the invalid months 0, 13 and -5. -/
theorem get_quarter_total_witness :
    get_quarter 0 = "Q4" ∧ get_quarter 13 = "Q4" ∧ get_quarter (-5) = "Q4" :=
  ⟨(get_quarter_total 0).2 (by decide), (get_quarter_total 13).2 (by decide),
   (get_quarter_total (-5)).2 (by decide)⟩

/-! ### Claims C7 and C5: merge semantics and failure isolation -/

/-- C7: Merging a bucket into an existing persisted partition is plain
concatenation with no deduplication: merging the same `N` records twice into
a partition of `M` records leaves `M + 2N` records whose first `M` are the
original ones, the new records appended after all existing ones. -/
theorem merge_append_twice (s : Store) (year q : String)
    (existing rows : List DataRow)
    (h : s (qkey year q) = some (FileState.good existing)) :
    ((saveQuarterlyFiles (saveQuarterlyFiles s year [(q, rows)]).1 year
          [(q, rows)]).1) (qkey year q) =
        some (FileState.good (existing ++ rows ++ rows)) ∧
      (existing ++ rows ++ rows).length = existing.length + 2 * rows.length ∧
      (existing ++ rows ++ rows).take existing.length = existing := by
  refine ⟨?_, by simp [List.length_append]; omega,
    by rw [List.append_assoc, List.take_left]⟩
  cases rows with
  | nil =>
      have h1 : saveQuarterlyFiles s year [(q, ([] : List DataRow))] = (s, true) := by
        simp [saveQuarterlyFiles]
      rw [h1, h1]
      simpa using h
  | cons r rs =>
      have h1 : saveQuarterlyFiles s year [(q, r :: rs)] =
          (updateStore s (qkey year q) (FileState.good (existing ++ (r :: rs))),
            true) := by
        simp [saveQuarterlyFiles, h]
      have h2 : (updateStore s (qkey year q) (FileState.good (existing ++ (r :: rs))))
          (qkey year q) = some (FileState.good (existing ++ (r :: rs))) := by
        simp [updateStore]
      rw [h1]
      have h3 : saveQuarterlyFiles
          (updateStore s (qkey year q) (FileState.good (existing ++ (r :: rs))))
          year [(q, r :: rs)] =
            (updateStore
              (updateStore s (qkey year q) (FileState.good (existing ++ (r :: rs))))
              (qkey year q) (FileState.good ((existing ++ (r :: rs)) ++ (r :: rs))),
              true) := by
        simp [saveQuarterlyFiles, h2]
      rw [h3]
      simp [updateStore]

/-- Witness for C7: re-merging the single-row bucket for `2024 Q1` twice into
a one-row partition leaves three rows, the original first. -/
theorem merge_append_twice_witness :
    ((saveQuarterlyFiles
        (saveQuarterlyFiles goodQ1Store "2024" [("Q1", [⟨some 2, "new"⟩])]).1
        "2024" [("Q1", [⟨some 2, "new"⟩])]).1) (qkey "2024" "Q1") =
      some (FileState.good
        [⟨some 1, "old"⟩, ⟨some 2, "new"⟩, ⟨some 2, "new"⟩]) := by
  have h := merge_append_twice goodQ1Store "2024" "Q1" [⟨some 1, "old"⟩]
    [⟨some 2, "new"⟩] (by decide)
  simpa using h.1

/-- C5 counterexample: with a corrupt existing partition at `2024_Q1` and an
input file holding one January and one April record, the April bucket is
nonempty, yet after `process_single_file` no `2024_Q2` partition exists and
the file is reported failed — the read failure on `2024_Q1` aborted the
remaining partitions of the same file, refuting per-partition isolation. -/
theorem partition_failure_not_isolated :
    (bucketRows [⟨some 1, "jan"⟩, ⟨some 4, "apr"⟩]).1.q2 = [⟨some 4, "apr"⟩] ∧
      (process_single_file corruptQ1Store true "2024"
          [⟨some 1, "jan"⟩, ⟨some 4, "apr"⟩]).1 (qkey "2024" "Q2") = none ∧
      (process_single_file corruptQ1Store true "2024"
          [⟨some 1, "jan"⟩, ⟨some 4, "apr"⟩]).2 = false := by
  refine ⟨by decide, by decide, by decide⟩

/-- C5 amended: a read/parse failure on an existing partition aborts the save
loop for its whole input file — the failing quarter and all later quarters of
that file are left unwritten, earlier writes are kept and no exception
escapes (the file is merely flagged failed) — while the remaining input files
of the batch are still processed. -/
theorem partition_failure_file_scoped :
    (∀ (s : Store) (year q : String) (rows : List DataRow)
        (rest : List (String × List DataRow)),
        rows ≠ [] → s (qkey year q) = some FileState.corrupt →
        saveQuarterlyFiles s year ((q, rows) :: rest) = (s, false)) ∧
      ∀ (s : Store) (f : Bool × String × List DataRow)
          (fs : List (Bool × String × List DataRow)),
        process_all_files s (f :: fs) =
          process_all_files (process_single_file s f.1 f.2.1 f.2.2).1 fs := by
  constructor
  · intro s year q rows rest hne hc
    cases rows with
    | nil => exact absurd rfl hne
    | cons r rs => simp [saveQuarterlyFiles, hc]
  · intro s f fs
    rfl

/-- Witness for C5 amended: the corrupt `2024_Q1` partition stops the save
loop before the `Q2` bucket, returning the store unchanged and the failure
flag. -/
theorem partition_failure_file_scoped_witness :
    saveQuarterlyFiles corruptQ1Store "2024"
        [("Q1", [⟨some 1, "jan"⟩]), ("Q2", [⟨some 4, "apr"⟩])] =
      (corruptQ1Store, false) :=
  partition_failure_file_scoped.1 corruptQ1Store "2024" "Q1" [⟨some 1, "jan"⟩]
    [("Q2", [⟨some 4, "apr"⟩])] (by simp) (by decide)

/-! ### Claim C6: percentage computation -/

/-- Two same-denominator percentage terms combine over the summed counts. -/
lemma pct_add (c1 c2 n : ℚ) : 100 * c1 / n + 100 * c2 / n = 100 * (c1 + c2) / n := by
  rw [div_add_div_same, ← mul_add]

/-- C6 counterexample: percentage matching is not case-insensitive — a
partition holding the single label `"POSITIVE"` yields a positive percentage
of `0`, while the spec's case-insensitive count would yield `100`. -/
theorem percentage_not_case_insensitive :
    (process_quarterly_percentages ["POSITIVE"]).1 = 0 ∧
      spec_percentage_ci ["POSITIVE"] "Positive" = 100 := by
  constructor
  · have h1 : (["POSITIVE"] : List String).count "Positive" = 0 := by decide
    have h2 : (["POSITIVE"] : List String).count "positive" = 0 := by decide
    simp only [process_quarterly_percentages]
    rw [h1, h2]
    norm_num
  · have h3 : countCaseInsensitive ["POSITIVE"] "Positive" = 1 := by decide
    simp only [spec_percentage_ci]
    rw [h3]
    norm_num

/-- C6 amended: each class percentage merges exactly the two spellings
`"Positive"` and `"positive"` (capitalized and all-lowercase; other case
variants are not merged), computed as `100 * (count of both spellings) /
total records`; a class with zero occurrences in both spellings is reported
as exactly `0`, never omitted from the row. -/
theorem percentages_merge_two_spellings (labels : List String) :
    (process_quarterly_percentages labels).1 =
        100 * ((labels.count "Positive" : ℚ) + (labels.count "positive" : ℚ)) /
          (labels.length : ℚ) ∧
      (process_quarterly_percentages labels).2.1 =
        100 * ((labels.count "Negative" : ℚ) + (labels.count "negative" : ℚ)) /
          (labels.length : ℚ) ∧
      (process_quarterly_percentages labels).2.2 =
        100 * ((labels.count "Neutral" : ℚ) + (labels.count "neutral" : ℚ)) /
          (labels.length : ℚ) ∧
      (labels.count "Positive" = 0 → labels.count "positive" = 0 →
        (process_quarterly_percentages labels).1 = 0) ∧
      (labels.count "Negative" = 0 → labels.count "negative" = 0 →
        (process_quarterly_percentages labels).2.1 = 0) ∧
      (labels.count "Neutral" = 0 → labels.count "neutral" = 0 →
        (process_quarterly_percentages labels).2.2 = 0) := by
  refine ⟨pct_add _ _ _, pct_add _ _ _, pct_add _ _ _,
    fun h1 h2 => ?_, fun h1 h2 => ?_, fun h1 h2 => ?_⟩ <;>
    · simp only [process_quarterly_percentages, h1, h2]
      norm_num

/-- Witness for C6 amended: a partition with one `"Negative"` label reports a
positive percentage of exactly `0`. -/
theorem percentages_merge_two_spellings_witness :
    (process_quarterly_percentages ["Negative"]).1 = 0 :=
  (percentages_merge_two_spellings ["Negative"]).2.2.2.1 (by decide) (by decide)

/-! ### Claim C9: aggregation over a year range -/

/-- The inner quarter loop of `collect_data` appends exactly the spec's rows
for its year, in list order, to each of the four accumulator columns. -/
lemma collectQuarters_eq (store : Nat → String → QuarterFile) (year : Nat) :
    ∀ (qs : List String) (sd : SentimentData),
      collectQuarters store year qs sd =
        { quarter := sd.quarter ++ (spec_quarterRows store year qs).map (fun r => r.1),
          positive := sd.positive ++ (spec_quarterRows store year qs).map (fun r => r.2.1),
          negative := sd.negative ++ (spec_quarterRows store year qs).map (fun r => r.2.2.1),
          neutral := sd.neutral ++ (spec_quarterRows store year qs).map (fun r => r.2.2.2) } := by
  intro qs
  induction qs with
  | nil =>
      intro sd
      simp [collectQuarters, spec_quarterRows]
  | cons q qs ih =>
      intro sd
      rw [collectQuarters, List.foldl_cons]
      cases hsq : store year q with
      | missing =>
          rw [if_pos rfl]
          have hq := ih sd
          rw [collectQuarters] at hq
          rw [hq]
          simp [spec_quarterRows, List.filterMap_cons, hsq]
      | unreadable =>
          rw [if_neg (by simp)]
          have hq := ih sd
          rw [collectQuarters] at hq
          have hred : (process_quarterly_file sd QuarterFile.unreadable
              (toString year ++ "_" ++ q)).1 = sd := rfl
          rw [hred, hq]
          simp [spec_quarterRows, List.filterMap_cons, hsq]
      | ok labels =>
          rw [if_neg (by simp)]
          have hq := ih ((process_quarterly_file sd (QuarterFile.ok labels)
            (toString year ++ "_" ++ q)).1)
          rw [collectQuarters] at hq
          rw [hq]
          simp [process_quarterly_file, spec_quarterRows, List.filterMap_cons, hsq,
            List.append_assoc]

/-- The year loop of `collect_data` appends the spec's rows year by year. -/
lemma collect_data_foldl (store : Nat → String → QuarterFile) :
    ∀ (years : List Nat) (sd : SentimentData),
      years.foldl (fun sd year => collectQuarters store year ["Q1", "Q2", "Q3", "Q4"] sd) sd =
        { quarter := sd.quarter ++
            (years.flatMap fun y => spec_quarterRows store y ["Q1", "Q2", "Q3", "Q4"]).map (fun r => r.1),
          positive := sd.positive ++
            (years.flatMap fun y => spec_quarterRows store y ["Q1", "Q2", "Q3", "Q4"]).map (fun r => r.2.1),
          negative := sd.negative ++
            (years.flatMap fun y => spec_quarterRows store y ["Q1", "Q2", "Q3", "Q4"]).map (fun r => r.2.2.1),
          neutral := sd.neutral ++
            (years.flatMap fun y => spec_quarterRows store y ["Q1", "Q2", "Q3", "Q4"]).map (fun r => r.2.2.2) } := by
  intro years
  induction years with
  | nil =>
      intro sd
      simp
  | cons y ys ih =>
      intro sd
      rw [List.foldl_cons, collectQuarters_eq, ih]
      simp [List.flatMap_cons, List.map_append, List.append_assoc]

/-- C9: For every requested year range, `collect_data` accumulates exactly
one trend row per quarter whose well-formed partition exists, in
chronological order (year ascending, then Q1 through Q4): its four parallel
columns are the projections of `spec_trendRows`, so a quarter with no
persisted partition is omitted entirely — not zero-filled — while all other
quarters of the range are still produced. -/
theorem collect_data_chronological (store : Nat → String → QuarterFile)
    (startYear endYear : Nat) :
    collect_data store startYear endYear =
      { quarter := (spec_trendRows store startYear endYear).map (fun r => r.1),
        positive := (spec_trendRows store startYear endYear).map (fun r => r.2.1),
        negative := (spec_trendRows store startYear endYear).map (fun r => r.2.2.1),
        neutral := (spec_trendRows store startYear endYear).map (fun r => r.2.2.2) } := by
  rw [collect_data, collect_data_foldl, spec_trendRows]
  simp

end SentimentAnalyse
